import Mathlib

/-!
Shallow embedding of the expression evaluator (`flow/src/evaluator.rs`) and the
decision-graph compiler (`flow/src/graph.rs`) of the `cqf` repository.

Modelling conventions:
* Rust `f64` values are modelled by `F64`: either a finite rational or `nan`.
  The arithmetic reachable from the evaluator (`+ - * %` and `abs`) is exact on
  the integers exercised here; no operation in the reference set produces an
  infinity from finite inputs (there is no division operator), so the only
  non-finite value the model needs is `nan`.
* `serde_json::Value` is modelled by `Json`; `serde_json` numbers are always
  finite, hence `Json.num` carries a rational.
* Rust panics (`expect`, `unwrap`) in the graph builder are modelled by
  `Option`: `none` means the Rust code panics and no value is produced.  The
  Rust signatures have no error channel at all, so a panic is the only
  non-success outcome.
* `str::parse::<f64>()` is modelled on the plain decimal fragment of its
  grammar (optional sign, digits, optional fractional part); exponent forms
  and the `inf`/`NaN` literals are not modelled.  Every token appearing in the
  properties below lies inside this fragment.
-/

/-- Model of Rust `f64` as used by the evaluator: a finite rational or NaN. -/
inductive F64 where
  | num (q : ℚ)
  | nan
deriving DecidableEq

/-- Returns `true` exactly when `serde_json::Number::from_f64` would accept the value. -/
def F64.isFinite : F64 → Bool
  | .num _ => true
  | .nan => false

/-- Rust `f64` addition; NaN propagates. -/
def F64.add : F64 → F64 → F64
  | .num a, .num b => .num (a + b)
  | _, _ => .nan

/-- Rust `f64` subtraction; NaN propagates. -/
def F64.sub : F64 → F64 → F64
  | .num a, .num b => .num (a - b)
  | _, _ => .nan

/-- Rust `f64` multiplication; NaN propagates. -/
def F64.mul : F64 → F64 → F64
  | .num a, .num b => .num (a * b)
  | _, _ => .nan

/-- Truncation toward zero, as Rust `f64::trunc` on a finite value. -/
def ratTrunc (q : ℚ) : ℤ := if 0 ≤ q then ⌊q⌋ else ⌈q⌉

/-- Rust `f64` remainder (`%`): `a - b * trunc(a / b)`, NaN when the divisor is
zero or an operand is NaN. -/
def F64.fmod : F64 → F64 → F64
  | .num a, .num b => if b = 0 then .nan else .num (a - b * (ratTrunc (a / b) : ℚ))
  | _, _ => .nan

/-- Rust `f64::abs`; NaN propagates. -/
def F64.fabs : F64 → F64
  | .num a => .num (abs a)
  | .nan => .nan

/-- Model of `serde_json::Value`. -/
inductive Json where
  | null
  | bool (b : Bool)
  | num (q : ℚ)
  | str (s : String)
  | arr (elems : List Json)
  | obj (entries : List (String × Json))

/-- First entry with the given key, as lookup in a `serde_json` object map. -/
def lookupEntry : List (String × Json) → String → Option Json
  | [], _ => none
  | (k, v) :: rest, key => if k = key then some v else lookupEntry rest key

/-- Model of `Value::get(&str)`: key lookup on objects, `None` on every other variant. -/
def Json.get : Json → String → Option Json
  | .obj entries, key => lookupEntry entries key
  | _, _ => none

/-- Model of `Value::as_f64`: every `serde_json` number is finite, so exactly the
`num` variant converts. -/
def Json.as_f64 : Json → Option ℚ
  | .num q => some q
  | _ => none

/-- Removes every top-level binding of `key` from an object, leaving any other
value untouched.  Used to state "the variable is entirely absent". -/
def removeKey (data : Json) (key : String) : Json :=
  match data with
  | .obj entries => .obj (entries.filter (fun e => e.1 ≠ key))
  | j => j

/-- The token model of `evaluator.rs`. -/
inductive Token where
  | number (n : F64)
  | var (name : String)
  | operator (symbol : String)
  | leftParen
  | rightParen
deriving DecidableEq

/-- Digits to a natural number, most significant first. -/
def digitsToNat (l : List Char) : Nat := l.foldl (fun acc c => acc * 10 + (c.toNat - 48)) 0

/-- Unsigned decimal body of the modelled `f64` grammar: digits, optionally
followed by `.` and further digits, with at least one digit overall. -/
def parseDec (l : List Char) : Option ℚ :=
  let intPart := l.takeWhile Char.isDigit
  let rest := l.dropWhile Char.isDigit
  match rest with
  | [] => if intPart.isEmpty then none else some ((digitsToNat intPart : ℚ))
  | '.' :: fracPart =>
    if fracPart.all Char.isDigit && !(intPart.isEmpty && fracPart.isEmpty) then
      some ((digitsToNat intPart : ℚ) + (digitsToNat fracPart : ℚ) / ((10 : ℚ) ^ fracPart.length))
    else none
  | _ => none

/-- Model of `s.parse::<f64>()` on the decimal fragment of its grammar (see the
file header): optional sign then an unsigned decimal body. -/
def parse_f64 (s : String) : Option ℚ :=
  match s.data with
  | [] => none
  | '-' :: rest => (parseDec rest).map (fun q => -q)
  | '+' :: rest => parseDec rest
  | l => parseDec l

/-- Model of `Token::from_str` (which never returns `Err`): parens, then number, then
`$`-prefixed variable, else an operator symbol taken verbatim. -/
def token_from_str (s : String) : Token :=
  if s = "(" then .leftParen
  else if s = ")" then .rightParen
  else match parse_f64 s with
    | some n => .number (.num n)
    | none =>
      match s.data with
      | '$' :: rest => .var (String.mk rest)
      | _ => .operator s

/-- Structural model of Rust `str::split_whitespace`: maximal runs of
non-whitespace characters, empty fragments discarded. -/
def splitWsAux : List Char → List Char → List String
  | [], acc => if acc = [] then [] else [String.mk acc.reverse]
  | c :: rest, acc =>
    if c.isWhitespace then
      (if acc = [] then splitWsAux rest [] else String.mk acc.reverse :: splitWsAux rest [])
    else splitWsAux rest (c :: acc)

/-- Rust `expr.split_whitespace()`. -/
def split_whitespace (s : String) : List String := splitWsAux s.data []

/-- Model of `Evaluator::tokenize`: classify each whitespace-separated fragment.  (The
Rust body re-checks `"("`/`")"` before delegating to `from_str`, which checks
them again; the composite is exactly `from_str` on each fragment.) -/
def tokenize (expr : String) : List Token :=
  (split_whitespace expr).map token_from_str

/-- The operator capability: `apply(left, right)`, a precedence, and arity. -/
structure Operator where
  apply : F64 → Option F64 → F64
  precedence : Nat
  is_unary : Bool

/-- Model of `AddOperator`: binary `+`, precedence 1; absent right operand defaults
to `0.0` per `right.unwrap_or(0.0)`. -/
def addOperator : Operator := ⟨fun a b => F64.add a (b.getD (.num 0)), 1, false⟩

/-- Model of `SubtractOperator`: binary `-`, precedence 1. -/
def subtractOperator : Operator := ⟨fun a b => F64.sub a (b.getD (.num 0)), 1, false⟩

/-- Model of `MultiplyOperator`: binary `*`, precedence 2. -/
def multiplyOperator : Operator := ⟨fun a b => F64.mul a (b.getD (.num 0)), 2, false⟩

/-- Model of `ModuloOperator`: binary `%`, precedence 2. -/
def moduloOperator : Operator := ⟨fun a b => F64.fmod a (b.getD (.num 0)), 2, false⟩

/-- Model of `AbsOperator`: unary `abs`, precedence 3, ignores its right operand. -/
def absOperator : Operator := ⟨fun a _ => F64.fabs a, 3, true⟩

/-- Model of `OperatorFactory::get_operator` over the registry built by
`OperatorFactory::new` (the five reference operators). -/
def get_operator (op : String) : Option Operator :=
  if op = "+" then some addOperator
  else if op = "-" then some subtractOperator
  else if op = "*" then some multiplyOperator
  else if op = "%" then some moduloOperator
  else if op = "abs" then some absOperator
  else none

/-- The inner `while` of `shunting_yard` on an `Operator(op)` token: while the
stack top is an operator token, pop it to the output if its precedence is at
least `op`'s; fail (naming `op`, as the Rust `format!` does) as soon as either
symbol is unregistered; a paren or an empty stack stops the loop. -/
def popHigher (op : String) (out stack : List Token) :
    Except String (List Token × List Token) :=
  match stack with
  | Token.operator topOp :: rest =>
    match get_operator topOp, get_operator op with
    | some top, some current =>
      if top.precedence ≥ current.precedence then
        popHigher op (out ++ [Token.operator topOp]) rest
      else .ok (out, stack)
    | _, _ => .error ("Unknown operator: " ++ op)
  | _ => .ok (out, stack)

/-- The `RightParen` arm of `shunting_yard`: pop to the output until a
`LeftParen` is popped (and discarded); an emptied stack stops silently. -/
def popUntilLParen (out stack : List Token) : List Token × List Token :=
  match stack with
  | [] => (out, [])
  | Token.leftParen :: rest => (out, rest)
  | t :: rest => popUntilLParen (out ++ [t]) rest

/-- The final `while` of `shunting_yard`: pop every remaining stack entry to
the output, failing on the first `LeftParen` popped. -/
def drainStack (out stack : List Token) : Except String (List Token) :=
  match stack with
  | [] => .ok out
  | Token.leftParen :: _ => .error "Mismatched parentheses"
  | t :: rest => drainStack (out ++ [t]) rest

/-- One iteration of the token loop of `shunting_yard`, on state
`(output queue, operator stack)` with the stack's head as its top. -/
def syStep (st : List Token × List Token) (t : Token) :
    Except String (List Token × List Token) :=
  match t with
  | .number _ => .ok (st.1 ++ [t], st.2)
  | .var _ => .ok (st.1 ++ [t], st.2)
  | .operator op =>
    match popHigher op st.1 st.2 with
    | .error e => .error e
    | .ok (out, stack) => .ok (out, Token.operator op :: stack)
  | .leftParen => .ok (st.1, Token.leftParen :: st.2)
  | .rightParen => .ok (popUntilLParen st.1 st.2)

/-- The token loop of `shunting_yard`, threading the state through `syStep`. -/
def processTokens : List Token → List Token × List Token →
    Except String (List Token × List Token)
  | [], st => .ok st
  | t :: ts, st =>
    match syStep st t with
    | .error e => .error e
    | .ok st' => processTokens ts st'

/-- Model of `Evaluator::shunting_yard`: run the token loop from empty state, then
drain the operator stack. -/
def shunting_yard (tokens : List Token) : Except String (List Token) :=
  match processTokens tokens ([], []) with
  | .error e => .error e
  | .ok (out, stack) => drainStack out stack

/-- Model of `Evaluator::get_variable`: `data.get(var).and_then(Value::as_f64)`,
with the `Invalid or missing variable` error when either step fails. -/
def get_variable (data : Json) (var : String) : Except String F64 :=
  match (data.get var).bind Json.as_f64 with
  | some q => .ok (.num q)
  | none => .error ("Invalid or missing variable: " ++ var)

/-- One iteration of the token loop of `evaluate_postfix` on the value stack
(head = top): push numbers and resolved variables; apply operators by arity,
popping the right operand first for binary ones. -/
def rpnStep (data : Json) (stack : List F64) (t : Token) :
    Except String (List F64) :=
  match t with
  | .number n => .ok (n :: stack)
  | .var v =>
    match get_variable data v with
    | .error e => .error e
    | .ok x => .ok (x :: stack)
  | .operator op =>
    match get_operator op with
    | none => .error ("Unknown operator: " ++ op)
    | some o =>
      if o.is_unary then
        match stack with
        | x :: rest => .ok (o.apply x none :: rest)
        | [] => .error "Not enough operands for unary operator"
      else
        match stack with
        | r :: l :: rest => .ok (o.apply l (some r) :: rest)
        | _ => .error "Not enough operands for binary operator"
  | _ => .error "Unexpected token in postfix expression"

/-- The token loop of `evaluate_postfix`, threading the value stack. -/
def runRPN (data : Json) : List Token → List F64 → Except String (List F64)
  | [], stack => .ok stack
  | t :: ts, stack =>
    match rpnStep data stack t with
    | .error e => .error e
    | .ok stack' => runRPN data ts stack'

/-- Model of `Evaluator::evaluate_postfix`: run the loop on an empty stack, then return
`stack.pop().ok_or("Empty expression")` — the top value if any, regardless of
how many values remain below it. -/
def evaluateRPN (rpn : List Token) (data : Json) : Except String F64 :=
  match runRPN data rpn [] with
  | .error e => .error e
  | .ok stack =>
    match stack with
    | x :: _ => .ok x
    | [] => .error "Empty expression"

/-- Model of `Evaluator::evaluate`: reject blank input (`expr.trim().is_empty()`, i.e.
every character is whitespace), then tokenize, parse, and evaluate. -/
def evaluate (expr : String) (data : Json) : Except String F64 :=
  if expr.data.all Char.isWhitespace then .error "Invalid expression"
  else
    match shunting_yard (tokenize expr) with
    | .error e => .error e
    | .ok rpn => evaluateRPN rpn data

/-- The public `eval` wrapper: a finite result becomes a JSON number; a
non-finite result falls back to the JSON number `0` via
`Number::from_f64(..).unwrap_or(0)`; an error becomes a JSON string. -/
def eval (expr : String) (data : Json) : Json :=
  match evaluate expr data with
  | .ok r =>
    match r with
    | .num q => Json.num q
    | .nan => Json.num 0
  | .error e => Json.str e

/-- Rust `Rule = HashMap<String, String>`, modelled as an association list. -/
def Rule := List (String × String)

/-- The `Decision` spec of `rule.rs`: the graph compiler's unit of input. -/
structure Decision where
  id : String
  kind : String
  rules : List Rule
  expression : String
  function : String
  inputs : List String
  outputs : List String
  sources : List String
  targets : List String

/-- Model of `zen_engine::model::DecisionTableInputField`. -/
structure DecisionTableInputField where
  id : String
  name : String
  field : Option String

/-- Model of `zen_engine::model::DecisionTableOutputField`. -/
structure DecisionTableOutputField where
  id : String
  name : String
  field : String

/-- Model of `zen_engine::model::DecisionTableHitPolicy`; the compiler only ever uses
`First`. -/
inductive DecisionTableHitPolicy where
  | first

/-- Model of `zen_engine::model::Expression`. -/
structure Expression where
  id : String
  key : String
  value : String

/-- Model of `zen_engine::model::DecisionTableContent`. -/
structure DecisionTableContent where
  hit_policy : DecisionTableHitPolicy
  rules : List Rule
  inputs : List DecisionTableInputField
  outputs : List DecisionTableOutputField

/-- Model of `zen_engine::model::ExpressionNodeContent`. -/
structure ExpressionNodeContent where
  expressions : List Expression

/-- Model of `zen_engine::model::FunctionNodeContent` (only `Version1` is used). -/
inductive FunctionNodeContent where
  | version1 (source : String)

/-- Model of `zen_engine::model::DecisionNodeKind`. -/
inductive DecisionNodeKind where
  | inputNode
  | outputNode
  | decisionTableNode (content : DecisionTableContent)
  | expressionNode (content : ExpressionNodeContent)
  | functionNode (content : FunctionNodeContent)

/-- Model of `zen_engine::model::DecisionNode`. -/
structure DecisionNode where
  id : String
  name : String
  kind : DecisionNodeKind

/-- Model of `zen_engine::model::DecisionEdge`. -/
structure DecisionEdge where
  id : String
  source_id : String
  target_id : String
  source_handle : Option String

/-- Model of `zen_engine::model::DecisionContent`: the compiled graph. -/
structure DecisionContent where
  nodes : List DecisionNode
  edges : List DecisionEdge

/-- Model of `make_fields`: map a field-name list through a descriptor constructor. -/
def make_fields {T : Type} (fields : List String) (field_creator : String → T) : List T :=
  fields.map field_creator

/-- Model of `DecisionTableNodeBuilder::build`: wrap the rule rows, derive input/output
field descriptors from the declared names, fix the hit policy to `First`. -/
def decisionTableNodeBuild (decision : Decision) : DecisionNode :=
  { id := decision.id
    name := decision.id
    kind := .decisionTableNode
      { hit_policy := .first
        rules := decision.rules
        inputs := make_fields decision.inputs (fun f => ⟨f, f, some f⟩)
        outputs := make_fields decision.outputs (fun f => ⟨f, f, f⟩) } }

/-- Model of `ExpressionNodeBuilder::build`: `inputs.first().unwrap()` is the bound
variable key; `none` models the `unwrap` panic on an empty `inputs` list. -/
def expressionNodeBuild (decision : Decision) : Option DecisionNode :=
  match decision.inputs.head? with
  | none => none
  | some key => some
    { id := decision.id
      name := decision.id
      kind := .expressionNode
        { expressions := [⟨key, key, decision.expression⟩] } }

/-- Model of `FunctionNodeBuilder::build`: wrap the raw function source verbatim. -/
def functionNodeBuild (decision : Decision) : DecisionNode :=
  { id := decision.id
    name := decision.id
    kind := .functionNode (.version1 decision.function) }

/-- The builder registry assembled by `NodeFactory::new`: the three kinds
`table`, `expression`, `function`; every other kind string is unregistered. -/
def builderFor (kind : String) : Option (Decision → Option DecisionNode) :=
  if kind = "table" then some (fun d => some (decisionTableNodeBuild d))
  else if kind = "expression" then some expressionNodeBuild
  else if kind = "function" then some (fun d => some (functionNodeBuild d))
  else none

/-- Model of `NodeFactory::create_node`: look the kind up and run the builder.  `none`
models a panic — either the `expect` on an unregistered kind or the
expression builder's `unwrap`; the Rust signature has no error channel. -/
def create_node (decision : Decision) : Option DecisionNode :=
  match builderFor decision.kind with
  | some builder => builder decision
  | none => none

/-- Model of `EdgeBuilder::build_edges`: for each decision, one edge from each declared
source to it, then one edge from it to each declared target, concatenated in
spec order with no de-duplication and no endpoint validation. -/
def build_edges (flow : List Decision) : List DecisionEdge :=
  flow.flatMap fun d =>
    (d.sources.map fun source =>
      { id := "", source_id := source, target_id := d.id, source_handle := some "" }) ++
    (d.targets.map fun target =>
      { id := "", source_id := d.id, target_id := target, source_handle := some "" })

/-- The fixed input sentinel prepended by `DecisionGraphBuilder::build`. -/
def requestNode : DecisionNode := ⟨"request", "request", .inputNode⟩

/-- The fixed output sentinel appended by `DecisionGraphBuilder::build`. -/
def responseNode : DecisionNode := ⟨"response", "response", .outputNode⟩

/-- The `nodes.extend(flow.iter().map(..create_node..))` step: one node per
decision in input order; `none` if any single build panics. -/
def createNodes : List Decision → Option (List DecisionNode)
  | [] => some []
  | d :: rest =>
    match create_node d with
    | none => none
    | some n =>
      match createNodes rest with
      | none => none
      | some ns => some (n :: ns)

/-- Model of `DecisionGraphBuilder::build`: input sentinel, one node per decision,
output sentinel; edges from `build_edges` over the same list. -/
def build (flow : List Decision) : Option DecisionContent :=
  match createNodes flow with
  | none => none
  | some mid => some { nodes := requestNode :: mid ++ [responseNode], edges := build_edges flow }

/-- Concrete decision spec whose kind string has no registered builder. -/
def unknownKindDecision : Decision :=
  { id := "d1", kind := "flowchart", rules := [], expression := "", function := "",
    inputs := [], outputs := [], sources := [], targets := [] }

/-- Concrete expression-kind decision spec with an empty inputs list. -/
def emptyInputsDecision : Decision :=
  { id := "d2", kind := "expression", rules := [], expression := "$a + 1", function := "",
    inputs := [], outputs := [], sources := [], targets := [] }

/-- Concrete table-kind decision spec with no declared sources or targets. -/
def tableDec : Decision :=
  { id := "t1", kind := "table", rules := [], expression := "", function := "",
    inputs := ["a"], outputs := ["b"], sources := [], targets := [] }

/-- Concrete table-kind decision spec declaring one source and one target. -/
def edgeDec : Decision :=
  { id := "e1", kind := "table", rules := [], expression := "", function := "",
    inputs := [], outputs := [], sources := ["a"], targets := ["b"] }

/-- C1: for a decision spec whose kind has no registered builder, graph
compilation does not return a recoverable build error — `create_node` panics
(modelled by `none`: its Rust signature `fn(Decision) -> DecisionNode` has no
error channel at all), so no graph and no error value reach the caller. -/
theorem c1_unknown_kind_panics :
    (∀ d : Decision, d.kind ≠ "table" → d.kind ≠ "expression" → d.kind ≠ "function" →
      create_node d = none) ∧
    build [unknownKindDecision] = none := by
  constructor
  · intro d h1 h2 h3
    simp [create_node, builderFor, h1, h2, h3]
  · rfl

/-- Witness for C1 at the concrete spec with kind `"flowchart"`. -/
theorem c1_unknown_kind_panics_witness : create_node unknownKindDecision = none :=
  c1_unknown_kind_panics.1 unknownKindDecision (by decide) (by decide) (by decide)

/-- C2 (divergence witness): a postfix sequence leaving two values on the
stack is not surfaced as an error — `evaluate_postfix` returns the top value
and silently discards the rest, so `"5 3"` evaluates to `3`. -/
theorem c2_leftover_values_silently_discarded :
    evaluateRPN [Token.number (F64.num 5), Token.number (F64.num 3)] (Json.obj []) =
      .ok (F64.num 3) ∧
    evaluate "5 3" (Json.obj []) = .ok (F64.num 3) := by
  refine ⟨rfl, ?_⟩
  have h : evaluate "5 3" (Json.obj []) = .ok (F64.num (digitsToNat ['3'] : ℚ)) := rfl
  rw [h, show digitsToNat ['3'] = 3 from rfl]
  norm_num

/-- C3: an expression-kind spec with an empty inputs list does not produce an
explicit build error — the builder's `inputs.first().unwrap()` panics
(modelled by `none`), so again no value and no error reach the caller. -/
theorem c3_empty_inputs_panics :
    (∀ d : Decision, d.kind = "expression" → d.inputs = [] → create_node d = none) ∧
    build [emptyInputsDecision] = none := by
  constructor
  · intro d hk hi
    simp [create_node, builderFor, hk, expressionNodeBuild, hi]
  · rfl

/-- Witness for C3 at the concrete empty-inputs expression spec. -/
theorem c3_empty_inputs_panics_witness : create_node emptyInputsDecision = none :=
  c3_empty_inputs_panics.1 emptyInputsDecision rfl rfl

/-- C7: with `+` at precedence 1 and `*` at precedence 2, multiplication binds
tighter, and `"5 + 3 * 2"` evaluates to the number 11 (both through the
internal evaluator and through the public JSON wrapper). -/
theorem c7_precedence :
    evaluate "5 + 3 * 2" (Json.obj []) = .ok (F64.num 11) ∧
    eval "5 + 3 * 2" (Json.obj []) = Json.num 11 ∧
    (get_operator "+").map Operator.precedence = some 1 ∧
    (get_operator "*").map Operator.precedence = some 2 := by
  have h : evaluate "5 + 3 * 2" (Json.obj []) =
      .ok (F64.num ((digitsToNat ['5'] : ℚ) + (digitsToNat ['3'] : ℚ) * (digitsToNat ['2'] : ℚ))) :=
    rfl
  have h11 : evaluate "5 + 3 * 2" (Json.obj []) = .ok (F64.num 11) := by
    rw [h, show digitsToNat ['5'] = 5 from rfl, show digitsToNat ['3'] = 3 from rfl,
      show digitsToNat ['2'] = 2 from rfl]
    norm_num
  refine ⟨h11, ?_, rfl, rfl⟩
  simp [eval, h11]

/-- Node collection preserves length: one node per decision. -/
theorem createNodes_length :
    ∀ {flow : List Decision} {mid : List DecisionNode},
      createNodes flow = some mid → mid.length = flow.length := by
  intro flow
  induction flow with
  | nil => intro mid h; simp [createNodes] at h; simp [← h]
  | cons d rest ih =>
    intro mid h
    simp only [createNodes] at h
    cases hc : create_node d with
    | none => rw [hc] at h; exact absurd h (by simp)
    | some n =>
      rw [hc] at h
      cases hr : createNodes rest with
      | none => rw [hr] at h; exact absurd h (by simp)
      | some ns =>
        rw [hr] at h
        simp at h
        simp [← h, ih hr]

/-- Node collection is pointwise: the i-th collected node is the node built
from the i-th decision. -/
theorem createNodes_get? :
    ∀ {flow : List Decision} {mid : List DecisionNode},
      createNodes flow = some mid →
      ∀ (i : ℕ) (d : Decision), flow[i]? = some d → mid[i]? = create_node d := by
  intro flow
  induction flow with
  | nil => intro mid _ i d hd; simp at hd
  | cons a rest ih =>
    intro mid h i d hd
    simp only [createNodes] at h
    cases hc : create_node a with
    | none => rw [hc] at h; exact absurd h (by simp)
    | some n =>
      rw [hc] at h
      cases hr : createNodes rest with
      | none => rw [hr] at h; exact absurd h (by simp)
      | some ns =>
        rw [hr] at h
        simp at h
        subst h
        cases i with
        | zero => simp at hd; rw [hd] at hc; simp [hc]
        | succ k => simp at hd ⊢; exact ih hr k d hd

/-- C4: whenever the compiler returns a graph for a list of N specs, the graph
has exactly N+2 nodes — the input sentinel `"request"` first, the output
sentinel `"response"` last, and one node per spec in input order between
them — and the empty spec list compiles to exactly 2 nodes and 0 edges. -/
theorem c4_graph_shape :
    (∀ (flow : List Decision) (g : DecisionContent), build flow = some g →
      g.nodes.length = flow.length + 2 ∧
      g.nodes.head? = some requestNode ∧
      g.nodes.getLast? = some responseNode ∧
      ∃ mid, createNodes flow = some mid ∧ mid.length = flow.length ∧
        g.nodes = requestNode :: mid ++ [responseNode] ∧
        ∀ (i : ℕ) (d : Decision), flow[i]? = some d → mid[i]? = create_node d) ∧
    build [] = some ⟨[requestNode, responseNode], []⟩ := by
  constructor
  · intro flow g hg
    simp only [build] at hg
    cases hm : createNodes flow with
    | none => rw [hm] at hg; exact absurd hg (by simp)
    | some mid =>
      rw [hm] at hg
      simp at hg
      have hlen : mid.length = flow.length := createNodes_length hm
      have hnodes : g.nodes = requestNode :: mid ++ [responseNode] := by rw [← hg]; rfl
      refine ⟨?_, ?_, ?_, mid, rfl, hlen, hnodes, createNodes_get? hm⟩
      · simp [hnodes, hlen]
      · simp [hnodes]
      · rw [hnodes, show requestNode :: mid ++ [responseNode] =
          (requestNode :: mid) ++ [responseNode] from rfl]
        exact List.getLast?_concat _
  · rfl

/-- Witness for C4: compiling one table spec yields the 3-node graph. -/
theorem c4_graph_shape_witness :
    ({ nodes := [requestNode, decisionTableNodeBuild tableDec, responseNode],
       edges := [] } : DecisionContent).nodes.length = 1 + 2 :=
  (c4_graph_shape.1 [tableDec] _ rfl).1

/-- Membership characterisation of the derived edge list: an edge is emitted
exactly for a declared source or target of some spec in the list, with no
side condition on the referenced ids. -/
theorem mem_build_edges {flow : List Decision} {e : DecisionEdge} :
    e ∈ build_edges flow ↔ ∃ d ∈ flow,
      (∃ s ∈ d.sources, e = ⟨"", s, d.id, some ""⟩) ∨
      (∃ t ∈ d.targets, e = ⟨"", d.id, t, some ""⟩) := by
  simp only [build_edges, List.mem_flatMap, List.mem_append, List.mem_map]
  constructor
  · rintro ⟨d, hd, h | h⟩
    · obtain ⟨s, hs, he⟩ := h
      exact ⟨d, hd, Or.inl ⟨s, hs, he.symm⟩⟩
    · obtain ⟨t, ht, he⟩ := h
      exact ⟨d, hd, Or.inr ⟨t, ht, he.symm⟩⟩
  · rintro ⟨d, hd, h | h⟩
    · obtain ⟨s, hs, he⟩ := h
      exact ⟨d, hd, Or.inl ⟨s, hs, he.symm⟩⟩
    · obtain ⟨t, ht, he⟩ := h
      exact ⟨d, hd, Or.inr ⟨t, ht, he.symm⟩⟩

/-- Length of the derived edge list: one edge per declared source and target,
duplicates and dangling ids counted like any other entry. -/
theorem length_build_edges (flow : List Decision) :
    (build_edges flow).length = (flow.map (fun d => d.sources.length + d.targets.length)).sum := by
  induction flow with
  | nil => rfl
  | cons d rest ih =>
    simp only [build_edges] at ih ⊢
    rw [List.flatMap_cons, List.length_append, List.length_append, List.length_map,
      List.length_map, List.map_cons, List.sum_cons, ih]

/-- C5: the edge builder emits, for each spec, one edge per declared source
(into the spec) and one per declared target (out of the spec), with no
de-duplication and no existence check of the referenced ids; in particular N
specs with one source and one target each yield exactly 2N edges. -/
theorem c5_edge_builder (flow : List Decision) :
    ((build_edges flow).length =
      (flow.map (fun d => d.sources.length + d.targets.length)).sum) ∧
    (∀ e : DecisionEdge, e ∈ build_edges flow ↔ ∃ d ∈ flow,
      (∃ s ∈ d.sources, e = ⟨"", s, d.id, some ""⟩) ∨
      (∃ t ∈ d.targets, e = ⟨"", d.id, t, some ""⟩)) ∧
    ((∀ d ∈ flow, d.sources.length = 1 ∧ d.targets.length = 1) →
      (build_edges flow).length = 2 * flow.length) := by
  refine ⟨length_build_edges flow, fun e => mem_build_edges, fun h => ?_⟩
  rw [length_build_edges]
  induction flow with
  | nil => rfl
  | cons d rest ih =>
    have hd := h d (List.mem_cons_self d rest)
    have hrest := ih (fun d' hd' => h d' (List.mem_cons_of_mem d hd'))
    simp [hd.1, hd.2, hrest, Nat.mul_succ, Nat.add_comm]

/-- Witness for C5: one spec with one source and one target yields 2 edges. -/
theorem c5_edge_builder_witness : (build_edges [edgeDec]).length = 2 * 1 :=
  (c5_edge_builder [edgeDec]).2.2 (by intro d hd; simp at hd; subst hd; constructor <;> rfl)

/-- C10: every edge of every compiled graph carries the empty string as its
id and `Some("")` as its source handle. -/
theorem c10_edge_id_and_handle :
    ∀ (flow : List Decision) (g : DecisionContent), build flow = some g →
      ∀ e ∈ g.edges, e.id = "" ∧ e.source_handle = some "" := by
  intro flow g hg e he
  have hedges : g.edges = build_edges flow := by
    simp only [build] at hg
    cases hm : createNodes flow with
    | none => rw [hm] at hg; exact absurd hg (by simp)
    | some mid => rw [hm] at hg; simp at hg; rw [← hg]
  rw [hedges] at he
  rcases mem_build_edges.mp he with ⟨d, _, h | h⟩
  · obtain ⟨s, _, rfl⟩ := h
    exact ⟨rfl, rfl⟩
  · obtain ⟨t, _, rfl⟩ := h
    exact ⟨rfl, rfl⟩

/-- Witness for C10 at the concrete one-spec flow with a source and target. -/
theorem c10_edge_id_and_handle_witness :
    (⟨"", "a", "e1", some ""⟩ : DecisionEdge).id = "" ∧
    (⟨"", "a", "e1", some ""⟩ : DecisionEdge).source_handle = some "" :=
  c10_edge_id_and_handle [edgeDec]
    ⟨[requestNode, decisionTableNodeBuild edgeDec, responseNode],
     [⟨"", "a", "e1", some ""⟩, ⟨"", "e1", "b", some ""⟩]⟩ rfl
    ⟨"", "a", "e1", some ""⟩ (List.mem_cons_self _ _)

/-- The precedence-pop loop fails only with an unknown-operator message. -/
theorem popHigher_error :
    ∀ {stack out : List Token} {op e : String},
      popHigher op out stack = .error e → e = "Unknown operator: " ++ op := by
  intro stack
  induction stack with
  | nil => intro out op e h; simp [popHigher] at h
  | cons t rest ih =>
    intro out op e h
    cases t with
    | operator topOp =>
      rw [popHigher] at h
      cases h1 : get_operator topOp with
      | none => rw [h1] at h; simp at h; exact h.symm
      | some top =>
        cases h2 : get_operator op with
        | none => rw [h1, h2] at h; simp at h; exact h.symm
        | some current =>
          rw [h1, h2] at h
          simp only [] at h
          by_cases hp : top.precedence ≥ current.precedence
          · rw [if_pos hp] at h; exact ih h
          · rw [if_neg hp] at h; simp at h
    | number n => simp [popHigher] at h
    | var v => simp [popHigher] at h
    | leftParen => simp [popHigher] at h
    | rightParen => simp [popHigher] at h

/-- A single shunting-yard step fails only with an unknown-operator message. -/
theorem syStep_error {st : List Token × List Token} {t : Token} {e : String}
    (h : syStep st t = .error e) : ∃ s, e = "Unknown operator: " ++ s := by
  cases t with
  | operator op =>
    rw [syStep] at h
    cases hp : popHigher op st.1 st.2 with
    | error e' => rw [hp] at h; simp at h; exact ⟨op, by rw [← h]; exact popHigher_error hp⟩
    | ok st' => rw [hp] at h; simp at h
  | number n => simp [syStep] at h
  | var v => simp [syStep] at h
  | leftParen => simp [syStep] at h
  | rightParen => simp [syStep] at h

/-- The shunting-yard token loop fails only with an unknown-operator message. -/
theorem processTokens_error :
    ∀ {ts : List Token} {st : List Token × List Token} {e : String},
      processTokens ts st = .error e → ∃ s, e = "Unknown operator: " ++ s := by
  intro ts
  induction ts with
  | nil => intro st e h; simp [processTokens] at h
  | cons t rest ih =>
    intro st e h
    rw [processTokens] at h
    cases hs : syStep st t with
    | error e' => rw [hs] at h; simp at h; subst h; exact syStep_error hs
    | ok st' => rw [hs] at h; exact ih h

/-- The end-of-input drain fails exactly when a left paren is still on the
operator stack, and then with the mismatched-parentheses message. -/
theorem drainStack_error_iff :
    ∀ {stack out : List Token},
      drainStack out stack = .error "Mismatched parentheses" ↔ Token.leftParen ∈ stack := by
  intro stack
  induction stack with
  | nil => intro out; simp [drainStack]
  | cons t rest ih =>
    intro out
    cases t with
    | leftParen => simp [drainStack]
    | number n =>
      rw [show drainStack out (Token.number n :: rest) = drainStack (out ++ [Token.number n]) rest from rfl, ih]
      simp
    | var v =>
      rw [show drainStack out (Token.var v :: rest) = drainStack (out ++ [Token.var v]) rest from rfl, ih]
      simp
    | operator s =>
      rw [show drainStack out (Token.operator s :: rest) = drainStack (out ++ [Token.operator s]) rest from rfl, ih]
      simp
    | rightParen =>
      rw [show drainStack out (Token.rightParen :: rest) = drainStack (out ++ [Token.rightParen]) rest from rfl, ih]
      simp

/-- An unknown-operator message is never the mismatched-parentheses message. -/
theorem unknown_ne_mismatched (s : String) :
    "Unknown operator: " ++ s ≠ "Mismatched parentheses" := by
  intro h
  have h2 := congrArg String.data h
  rw [String.data_append] at h2
  have h3 := congrArg List.head? h2
  simp at h3

/-- C6: the parser fails with "Mismatched parentheses" exactly when the token
loop completes and a `LeftParen` is left on the operator stack; the expression
`"(5 + 3"` yields a parse error (here the unknown-operator one: its first
fragment `"(5"` lexes as an operator symbol); and a `RightParen` token never
makes a step fail — a stray right paren is silently tolerated, e.g.
`"5 + 3 )"` still evaluates to 8. -/
theorem c6_mismatched_parens :
    (∀ tokens : List Token,
      shunting_yard tokens = .error "Mismatched parentheses" ↔
      ∃ out stack, processTokens tokens ([], []) = .ok (out, stack) ∧
        Token.leftParen ∈ stack) ∧
    evaluate "(5 + 3" (Json.obj []) = .error "Unknown operator: +" ∧
    (∀ out stack : List Token, ∃ st, syStep (out, stack) Token.rightParen = .ok st) ∧
    evaluate "5 + 3 )" (Json.obj []) = .ok (F64.num 8) := by
  refine ⟨?_, rfl, fun out stack => ⟨popUntilLParen out stack, rfl⟩, ?_⟩
  · intro tokens
    rw [shunting_yard]
    cases hp : processTokens tokens ([], []) with
    | error e =>
      constructor
      · intro h
        obtain ⟨s, hs⟩ := processTokens_error hp
        have he : e = "Mismatched parentheses" := Except.error.inj h
        exact absurd (hs.symm.trans he) (unknown_ne_mismatched s)
      · rintro ⟨out, stack, hok, _⟩
        exact Except.noConfusion hok
    | ok st =>
      obtain ⟨out, stack⟩ := st
      constructor
      · intro h
        exact ⟨out, stack, rfl, drainStack_error_iff.mp h⟩
      · rintro ⟨out', stack', hok, hmem⟩
        have hpair : (out, stack) = (out', stack') := Except.ok.inj hok
        rw [Prod.mk.injEq] at hpair
        obtain ⟨rfl, rfl⟩ := hpair
        exact drainStack_error_iff.mpr hmem
  · have h : evaluate "5 + 3 )" (Json.obj []) =
        .ok (F64.num ((digitsToNat ['5'] : ℚ) + (digitsToNat ['3'] : ℚ))) := rfl
    rw [h, show digitsToNat ['5'] = 5 from rfl, show digitsToNat ['3'] = 3 from rfl]
    norm_num

/-- Witness for C6: a bare left paren makes the parser fail with the
mismatched-parentheses error, and a right-paren step always succeeds. -/
theorem c6_mismatched_parens_witness :
    shunting_yard [Token.leftParen] = .error "Mismatched parentheses" ∧
    ∃ st, syStep ([], []) Token.rightParen = .ok st :=
  ⟨(c6_mismatched_parens.1 [Token.leftParen]).mpr
      ⟨[], [Token.leftParen], rfl, List.mem_singleton.mpr rfl⟩,
    c6_mismatched_parens.2.2.1 [] []⟩

/-- Filtering out a key makes later lookup of that key fail. -/
theorem lookupEntry_filter_self (entries : List (String × Json)) (v : String) :
    lookupEntry (entries.filter (fun e => e.1 ≠ v)) v = none := by
  induction entries with
  | nil => rfl
  | cons p rest ih =>
    rw [List.filter_cons]
    by_cases hp : p.1 = v
    · rw [if_neg (by simp [hp])]
      exact ih
    · rw [if_pos (by simp [hp])]
      rw [lookupEntry, if_neg hp]
      exact ih

/-- Filtering out one key leaves lookup of every other key unchanged. -/
theorem lookupEntry_filter_ne (entries : List (String × Json)) {v w : String} (hw : w ≠ v) :
    lookupEntry (entries.filter (fun e => e.1 ≠ v)) w = lookupEntry entries w := by
  induction entries with
  | nil => rfl
  | cons p rest ih =>
    by_cases hp : p.1 = v
    · rw [List.filter_cons, if_neg (by simp [hp])]
      rw [ih, lookupEntry, if_neg (by rw [hp]; exact fun h => hw h.symm)]
    · rw [List.filter_cons, if_pos (by simp [hp])]
      rw [lookupEntry, lookupEntry]
      by_cases hpw : p.1 = w
      · rw [if_pos hpw, if_pos hpw]
      · rw [if_neg hpw, if_neg hpw, ih]

/-- When the variable `v` is bound to a non-numeric value, removing it changes
no variable resolution at all: `v` itself fails identically (bound-but-non-
numeric and absent produce the same error), and other keys are untouched. -/
theorem get_variable_removeKey {data : Json} {v : String} {j : Json}
    (h1 : data.get v = some j) (h2 : j.as_f64 = none) :
    ∀ w, get_variable (removeKey data v) w = get_variable data w := by
  intro w
  cases data with
  | obj entries =>
    by_cases hw : w = v
    · subst hw
      rw [get_variable, get_variable]
      rw [show (Json.obj entries).get w = lookupEntry entries w from rfl] at h1 ⊢
      rw [show (removeKey (Json.obj entries) w).get w =
          lookupEntry (entries.filter (fun e => e.1 ≠ w)) w from rfl]
      rw [lookupEntry_filter_self, h1]
      simp [Option.bind, h2]
    · rw [get_variable, get_variable,
        show (removeKey (Json.obj entries) v).get w =
          lookupEntry (entries.filter (fun e => e.1 ≠ v)) w from rfl,
        show (Json.obj entries).get w = lookupEntry entries w from rfl,
        lookupEntry_filter_ne entries hw]
  | null => exact absurd h1 (by simp [Json.get])
  | bool b => exact absurd h1 (by simp [Json.get])
  | num q => exact absurd h1 (by simp [Json.get])
  | str s => exact absurd h1 (by simp [Json.get])
  | arr elems => exact absurd h1 (by simp [Json.get])

/-- Postfix evaluation reads the context only through `get_variable`, so two
contexts resolving every variable identically evaluate identically. -/
theorem runRPN_congr {d1 d2 : Json}
    (h : ∀ w, get_variable d1 w = get_variable d2 w) :
    ∀ (ts : List Token) (stack : List F64), runRPN d1 ts stack = runRPN d2 ts stack := by
  intro ts
  induction ts with
  | nil => intro stack; rfl
  | cons t rest ih =>
    intro stack
    rw [runRPN, runRPN, show rpnStep d1 stack t = rpnStep d2 stack t from by
      cases t with
      | var v => rw [rpnStep, rpnStep, h v]
      | number n => rfl
      | operator op => rfl
      | leftParen => rfl
      | rightParen => rfl]
    cases rpnStep d2 stack t with
    | error e => rfl
    | ok stack' => exact ih stack'

/-- Whole-expression evaluation reads the context only through
`get_variable`. -/
theorem evaluate_congr {d1 d2 : Json}
    (h : ∀ w, get_variable d1 w = get_variable d2 w) :
    ∀ expr, evaluate expr d1 = evaluate expr d2 := by
  intro expr
  rw [evaluate, evaluate]
  by_cases hb : expr.data.all Char.isWhitespace
  · rw [if_pos hb, if_pos hb]
  · rw [if_neg hb, if_neg hb]
    cases shunting_yard (tokenize expr) with
    | error e => rfl
    | ok rpn =>
      show evaluateRPN rpn d1 = evaluateRPN rpn d2
      rw [evaluateRPN, evaluateRPN, runRPN_congr h rpn []]

/-- C8: a variable bound to a non-numeric JSON value resolves exactly as an
absent variable does — `get_variable` fails with the same
`Invalid or missing variable` error, and every expression evaluates the same
against the context with the binding removed entirely. -/
theorem c8_non_numeric_like_missing :
    ∀ (data : Json) (v : String) (j : Json),
      data.get v = some j → j.as_f64 = none →
      get_variable data v = .error ("Invalid or missing variable: " ++ v) ∧
      (removeKey data v).get v = none ∧
      ∀ expr, evaluate expr data = evaluate expr (removeKey data v) := by
  intro data v j h1 h2
  refine ⟨?_, ?_, fun expr => (evaluate_congr (get_variable_removeKey h1 h2) expr).symm⟩
  · rw [get_variable, h1]
    simp [Option.bind, h2]
  · cases data with
    | obj entries => exact lookupEntry_filter_self entries v
    | null => rfl
    | bool b => rfl
    | num q => rfl
    | str s => rfl
    | arr elems => rfl

/-- Witness for C8 at a context binding `x` to the string `"hi"`. -/
theorem c8_non_numeric_like_missing_witness :
    get_variable (Json.obj [("x", Json.str "hi")]) "x" =
      .error "Invalid or missing variable: x" ∧
    evaluate "$x + 1" (Json.obj [("x", Json.str "hi")]) =
      evaluate "$x + 1" (removeKey (Json.obj [("x", Json.str "hi")]) "x") := by
  obtain ⟨h1, _, h3⟩ :=
    c8_non_numeric_like_missing (Json.obj [("x", Json.str "hi")]) "x" (Json.str "hi") rfl rfl
  exact ⟨h1, h3 "$x + 1"⟩

/-- C9: whenever internal evaluation succeeds with a non-finite result, the
public wrapper returns the JSON number 0 — not an error string and not a
non-finite number. -/
theorem c9_non_finite_becomes_zero :
    ∀ (expr : String) (data : Json) (v : F64),
      evaluate expr data = .ok v → v.isFinite = false → eval expr data = Json.num 0 := by
  intro expr data v h hv
  rw [eval, h]
  cases v with
  | num q => exact absurd hv (by simp [F64.isFinite])
  | nan => rfl

/-- Witness for C9: `"5 % 0"` evaluates internally to NaN (the float remainder
by zero), and the wrapper renders it as the JSON number 0. -/
theorem c9_non_finite_becomes_zero_witness : eval "5 % 0" (Json.obj []) = Json.num 0 := by
  refine c9_non_finite_becomes_zero "5 % 0" (Json.obj []) F64.nan ?_ rfl
  have h : evaluate "5 % 0" (Json.obj []) =
      .ok (F64.fmod (.num (digitsToNat ['5'] : ℚ)) (.num (digitsToNat ['0'] : ℚ))) := rfl
  rw [h, show digitsToNat ['0'] = 0 from rfl, show digitsToNat ['5'] = 5 from rfl]
  simp [F64.fmod]
